import Mathlib

/-!
Shallow embedding of the `nefsm` finite-state-machine engine
(`src/nefsm/src/lib.rs`), covering both the synchronous module `sync`
(lines 23-195) and the asynchronous module `Async` (lines 196-374).

Modelling decisions, each traceable to the source:

* `Response`, `Error` (lines 44-59 and 221-236): the two modules declare
  textually identical copies of these enums; we declare them once.
* Trait objects: a `Stateful` behavior is a boxed object with mutable
  internal fields, cached per state identity (lines 62-67).  We model the
  internal mutable state of a behavior by a type `B`, the internal state of
  the global `EventHandler` by a type `H`, and the trait implementations by
  a record `Fsm` of pure functions that return the updated internal state
  and context alongside the `Response`.
* The `HashMap<S, Box<dyn Stateful>>` cache is an association list
  `List (S × B)`; `get_mut` followed by an in-place mutation of the boxed
  behavior becomes `lookupState`/`updateState`, and `entry().or_insert`
  becomes `fetchOrCreate`.
* The `loop`s in `init` and `transition_to` become fuel-indexed recursive
  functions (`initLoop`, `transLoop`); `none` means the fuel ran out, i.e.
  the source loop has not terminated within that many iterations, and an
  `unwrap` on a `None`/missing key (a Rust panic) is also mapped to `none`.
* Every lifecycle callback invocation is recorded in a trace
  (`List (Call S E)`) in invocation order.
-/

/-- Lifecycle callback invocations, in the order the engine performs them:
the global handler's `on_event`, a state's `on_enter`, a state's
`on_event`, a state's `on_exit`. -/
inductive Call (S E : Type) where
  | GlobalOnEvent (e : E)
  | OnEnter (s : S)
  | OnEvent (s : S) (e : E)
  | OnExit (s : S)
  deriving DecidableEq, Repr

/-- The `Response` enum (lines 45-49 / 222-226). -/
inductive Response (S : Type) where
  | Handled
  | Error (msg : String)
  | Transition (s : S)
  deriving DecidableEq, Repr

/-- The `Error` enum (lines 52-59 / 229-236). -/
inductive Error where
  | StateNotFound (msg : String)
  | StateInvalid (msg : String)
  | InvalidEvent (msg : String)
  | StateMachineNotInitialized
  | InternalError (msg : String)
  deriving DecidableEq, Repr

/-- The trait implementations supplied by the user of the library:
`FsmEnum::create` (lines 28-30), the three `Stateful` methods
(lines 33-37) and the global `EventHandler::on_event` (lines 40-42).
`B` is the internal mutable state of a boxed `Stateful` object, `H` the
internal mutable state of the boxed `EventHandler`; each callback returns
its updated internal state and the updated context. -/
structure Fsm (S B H CTX E : Type) where
  create : S → B
  on_enter : S → B → CTX → Response S × B × CTX
  on_event : S → B → E → CTX → Response S × B × CTX
  on_exit : S → B → CTX → B × CTX
  handler_on_event : H → E → CTX → Response S × H × CTX

/-- The `StateMachine` struct (lines 62-67 / 239-244): the behavior cache,
the optional current state, the context, and the optional global handler
state. -/
structure StateMachine (S B H CTX E : Type) where
  states : List (S × B)
  current_state : Option S
  context : CTX
  global_event_handler : Option H

variable {S B H CTX E : Type} [DecidableEq S]

/-- Association-list lookup, modelling `HashMap::get_mut` keyed by the
state identity's equality. -/
def lookupState : List (S × B) → S → Option B
  | [], _ => none
  | (k, b) :: rest, s => if k = s then some b else lookupState rest s

/-- Insertion of a fresh entry, modelling `HashMap::entry(..).or_insert`. -/
def insertState (states : List (S × B)) (s : S) (b : B) : List (S × B) :=
  states ++ [(s, b)]

/-- Write-back of a behavior's mutated internal state after a callback ran
on the cached `&mut` reference. -/
def updateState (states : List (S × B)) (s : S) (b : B) : List (S × B) :=
  states.map (fun p => if p.1 = s then (s, b) else p)

/-- The fetch-or-create step shared by `init`, `process_event` and
`transition_to` (e.g. lines 100-107): reuse the cached behavior, or call
`S::create` and insert the fresh one. -/
def fetchOrCreate (M : Fsm S B H CTX E) (states : List (S × B)) (s : S) :
    B × List (S × B) :=
  match lookupState states s with
  | some b => (b, states)
  | none => (M.create s, insertState states s (M.create s))

/-- The entry-cascade loop of `init` (lines 98-114, identical in the
async variant at lines 276-292): fetch-or-create, call `on_enter`, then
`Handled` settles, `Error` aborts, and `Transition(s)` unconditionally
continues the cascade at `s` — this loop has no self-transition guard. -/
def initLoop (M : Fsm S B H CTX E) :
    Nat → List (S × B) → CTX → S →
    Option (Except String S × List (S × B) × CTX × List (Call S E))
  | 0, _, _, _ => none
  | fuel + 1, states, ctx, s =>
    let bs := fetchOrCreate M states s
    let rbc := M.on_enter s bs.1 ctx
    let states2 := updateState bs.2 s rbc.2.1
    let ctx2 := rbc.2.2
    match rbc.1 with
    | Response.Handled => some (Except.ok s, states2, ctx2, [Call.OnEnter s])
    | Response.Error msg => some (Except.error msg, states2, ctx2, [Call.OnEnter s])
    | Response.Transition s2 =>
      match initLoop M fuel states2 ctx2 s2 with
      | none => none
      | some (r, st3, ctx3, tr) => some (r, st3, ctx3, Call.OnEnter s :: tr)

/-- The entry-cascade loop of `transition_to` (lines 166-188, and the
async variant at lines 344-367 where the guard compares against
`current_state_ref`, an alias of the same candidate): identical to
`initLoop` except that a `Transition` to the candidate identity itself
breaks the loop, settling on that identity. -/
def transLoop (M : Fsm S B H CTX E) :
    Nat → List (S × B) → CTX → S →
    Option (Except String S × List (S × B) × CTX × List (Call S E))
  | 0, _, _, _ => none
  | fuel + 1, states, ctx, s =>
    let bs := fetchOrCreate M states s
    let rbc := M.on_enter s bs.1 ctx
    let states2 := updateState bs.2 s rbc.2.1
    let ctx2 := rbc.2.2
    match rbc.1 with
    | Response.Handled => some (Except.ok s, states2, ctx2, [Call.OnEnter s])
    | Response.Error msg => some (Except.error msg, states2, ctx2, [Call.OnEnter s])
    | Response.Transition s2 =>
      if s2 = s then some (Except.ok s, states2, ctx2, [Call.OnEnter s])
      else
        match transLoop M fuel states2 ctx2 s2 with
        | none => none
        | some (r, st3, ctx3, tr) => some (r, st3, ctx3, Call.OnEnter s :: tr)

/-- Models `sync::StateMachine::init` (lines 94-118) and the textually
identical `Async::StateMachine::init` (lines 272-296): if a current state
is already set the call is a no-op returning `Ok(())`; otherwise run the
entry cascade, on `Handled` settle the current state, on an `Error`
response return `Err(StateInvalid(e))` leaving `current_state` unset
(the cache and context keep the mutations made so far). -/
def StateMachine.init (M : Fsm S B H CTX E) (fuel : Nat)
    (m : StateMachine S B H CTX E) (initial_state : S) :
    Option (Except Error Unit × StateMachine S B H CTX E × List (Call S E)) :=
  match m.current_state with
  | some _ => some (Except.ok (), m, [])
  | none =>
    match initLoop M fuel m.states m.context initial_state with
    | none => none
    | some (Except.ok s, st, ctx, tr) =>
      some (Except.ok (), { m with states := st, context := ctx, current_state := some s }, tr)
    | some (Except.error msg, st, ctx, tr) =>
      some (Except.error (Error.StateInvalid msg), { m with states := st, context := ctx }, tr)

/-- Models `sync::StateMachine::transition_to` (lines 160-193) and the
semantically identical `Async::StateMachine::transition_to`
(lines 338-372): unwrap the current state and its cached behavior (a
missing one is a Rust panic, mapped to `none`), call `on_exit`, then run
the guarded entry cascade; on success set `current_state` to where the
cascade settled, on an `Error` response return `Err(StateInvalid(e))`
with `current_state` left at its pre-transition value. -/
def StateMachine.transition_to (M : Fsm S B H CTX E) (fuel : Nat)
    (m : StateMachine S B H CTX E) (new_state : S) :
    Option (Except Error Unit × StateMachine S B H CTX E × List (Call S E)) :=
  match m.current_state with
  | none => none
  | some c =>
    match lookupState m.states c with
    | none => none
    | some b =>
      let bc := M.on_exit c b m.context
      let states1 := updateState m.states c bc.1
      let ctx1 := bc.2
      match transLoop M fuel states1 ctx1 new_state with
        | none => none
        | some (Except.ok s, st, ctx2, tr) =>
          some (Except.ok (),
            { m with states := st, context := ctx2, current_state := some s },
            Call.OnExit c :: tr)
        | some (Except.error msg, st, ctx2, tr) =>
          some (Except.error (Error.StateInvalid msg),
            { m with states := st, context := ctx2 },
            Call.OnExit c :: tr)

/-- The part of `process_event` after the global-handler step, identical
in both modules (lines 139-156 / 317-335): fetch-or-create the active
behavior, call its `on_event`; `Handled` returns `Ok`, `Error(s)` returns
`Err(InvalidEvent(s))`, and `Transition(n)` with `n` different from the
current state runs `transition_to` (propagating its result), while a
self-transition returns `Ok` without any exit/entry. -/
def StateMachine.dispatchEvent (M : Fsm S B H CTX E) (fuel : Nat)
    (m : StateMachine S B H CTX E) (c : S) (e : E) :
    Option (Except Error Unit × StateMachine S B H CTX E × List (Call S E)) :=
  let bs := fetchOrCreate M m.states c
  let rbc := M.on_event c bs.1 e m.context
  let m1 : StateMachine S B H CTX E :=
    { m with states := updateState bs.2 c rbc.2.1, context := rbc.2.2 }
  match rbc.1 with
  | Response.Handled => some (Except.ok (), m1, [Call.OnEvent c e])
  | Response.Error s => some (Except.error (Error.InvalidEvent s), m1, [Call.OnEvent c e])
  | Response.Transition n =>
    if n = c then some (Except.ok (), m1, [Call.OnEvent c e])
    else
      match StateMachine.transition_to M fuel m1 n with
      | none => none
      | some (r, m2, tr) => some (r, m2, Call.OnEvent c e :: tr)

/-- Models `sync::StateMachine::process_event` (lines 121-157): a missing
current state returns `Err(StateMachineNotInitialized)`; otherwise the
global handler (when present) runs first — `Handled` and a self
`Transition` fall through to the active state's dispatch, `Error(s)`
returns `Err(InvalidEvent(s))`, and a `Transition` to a different state
returns the result of `transition_to` directly, skipping the active
state's `on_event`. -/
def sync.process_event (M : Fsm S B H CTX E) (fuel : Nat)
    (m : StateMachine S B H CTX E) (e : E) :
    Option (Except Error Unit × StateMachine S B H CTX E × List (Call S E)) :=
  match m.current_state with
  | none => some (Except.error Error.StateMachineNotInitialized, m, [])
  | some c =>
    match m.global_event_handler with
    | none => StateMachine.dispatchEvent M fuel m c e
    | some h =>
      let rhc := M.handler_on_event h e m.context
      let m1 : StateMachine S B H CTX E :=
        { m with global_event_handler := some rhc.2.1, context := rhc.2.2 }
      match rhc.1 with
      | Response.Handled =>
        match StateMachine.dispatchEvent M fuel m1 c e with
        | none => none
        | some (r, m2, tr) => some (r, m2, Call.GlobalOnEvent e :: tr)
      | Response.Error s =>
        some (Except.error (Error.InvalidEvent s), m1, [Call.GlobalOnEvent e])
      | Response.Transition n =>
        if n = c then
          match StateMachine.dispatchEvent M fuel m1 c e with
          | none => none
          | some (r, m2, tr) => some (r, m2, Call.GlobalOnEvent e :: tr)
        else
          match StateMachine.transition_to M fuel m1 n with
          | none => none
          | some (r, m2, tr) => some (r, m2, Call.GlobalOnEvent e :: tr)

/-- Models `Async::StateMachine::process_event` (lines 298-336).  It is
identical to the synchronous version except in the global-handler
`Transition` branch (lines 308-313): there the source runs
`self.transition_to(new_state).await;` and then `return Ok(());`,
discarding `transition_to`'s `Result` instead of propagating it. -/
def Async.process_event (M : Fsm S B H CTX E) (fuel : Nat)
    (m : StateMachine S B H CTX E) (e : E) :
    Option (Except Error Unit × StateMachine S B H CTX E × List (Call S E)) :=
  match m.current_state with
  | none => some (Except.error Error.StateMachineNotInitialized, m, [])
  | some c =>
    match m.global_event_handler with
    | none => StateMachine.dispatchEvent M fuel m c e
    | some h =>
      let rhc := M.handler_on_event h e m.context
      let m1 : StateMachine S B H CTX E :=
        { m with global_event_handler := some rhc.2.1, context := rhc.2.2 }
      match rhc.1 with
      | Response.Handled =>
        match StateMachine.dispatchEvent M fuel m1 c e with
        | none => none
        | some (r, m2, tr) => some (r, m2, Call.GlobalOnEvent e :: tr)
      | Response.Error s =>
        some (Except.error (Error.InvalidEvent s), m1, [Call.GlobalOnEvent e])
      | Response.Transition n =>
        if n = c then
          match StateMachine.dispatchEvent M fuel m1 c e with
          | none => none
          | some (r, m2, tr) => some (r, m2, Call.GlobalOnEvent e :: tr)
        else
          match StateMachine.transition_to M fuel m1 n with
          | none => none
          | some (_r, m2, tr) => some (Except.ok (), m2, Call.GlobalOnEvent e :: tr)


/-! ### Concrete instantiations used as executable test fixtures

State identities are `Nat`, behaviors and handlers are stateless
(internal state `Unit`), the context is a `Nat` counter, events are
`Nat`. -/

/-- A fixture where every callback answers `Handled` and nothing is
mutated. -/
def Mtriv : Fsm Nat Unit Unit Nat Nat where
  create _ := ()
  on_enter _ _ ctx := (Response.Handled, (), ctx)
  on_event _ _ _ ctx := (Response.Handled, (), ctx)
  on_exit _ _ ctx := ((), ctx)
  handler_on_event _ _ ctx := (Response.Handled, (), ctx)

/-- A fixture whose state `0` chains its entry into state `1`
(`on_enter` counts in the context). -/
def Mchain : Fsm Nat Unit Unit Nat Nat where
  create _ := ()
  on_enter s _ ctx := if s = 0 then (Response.Transition 1, (), ctx + 1)
    else (Response.Handled, (), ctx + 1)
  on_event _ _ _ ctx := (Response.Handled, (), ctx)
  on_exit _ _ ctx := ((), ctx)
  handler_on_event _ _ ctx := (Response.Handled, (), ctx)

/-- A fixture where every state's `on_enter` requests a transition to
that same state. -/
def MselfLoop : Fsm Nat Unit Unit Nat Nat where
  create _ := ()
  on_enter s _ ctx := (Response.Transition s, (), ctx)
  on_event _ _ _ ctx := (Response.Handled, (), ctx)
  on_exit _ _ ctx := ((), ctx)
  handler_on_event _ _ ctx := (Response.Handled, (), ctx)

/-- A fixture where entering state `1` is rejected with an `Error`
response; the handler and the active state's `on_event` both request the
transition to `1`, and every callback leaves a distinct mark on the
context counter. -/
def Mreject : Fsm Nat Unit Unit Nat Nat where
  create _ := ()
  on_enter s _ ctx := if s = 1 then (Response.Error "boom", (), ctx + 1)
    else (Response.Handled, (), ctx)
  on_event _ _ _ ctx := (Response.Transition 1, (), ctx + 100)
  on_exit _ _ ctx := ((), ctx + 10)
  handler_on_event _ _ ctx := (Response.Transition 1, (), ctx)

/-- A fixture whose handler redirects every event to state `1`, whose
entry chains into state `2`, where the cascade settles. -/
def Mok : Fsm Nat Unit Unit Nat Nat where
  create _ := ()
  on_enter s _ ctx := if s = 1 then (Response.Transition 2, (), ctx + 1)
    else (Response.Handled, (), ctx + 1)
  on_event _ _ _ ctx := (Response.Handled, (), ctx)
  on_exit _ _ ctx := ((), ctx)
  handler_on_event _ _ ctx := (Response.Transition 1, (), ctx + 2)

/-- A fixture where every state's `on_event` answers `Transition` to the
state's own identity. -/
def MselfEvent : Fsm Nat Unit Unit Nat Nat where
  create _ := ()
  on_enter _ _ ctx := (Response.Handled, (), ctx)
  on_event s _ _ ctx := (Response.Transition s, (), ctx + 1)
  on_exit _ _ ctx := ((), ctx)
  handler_on_event _ _ ctx := (Response.Handled, (), ctx)

/-- A fixture whose handler answers `Transition` to state `0` for every
event. -/
def MhandlerSelf : Fsm Nat Unit Unit Nat Nat where
  create _ := ()
  on_enter _ _ ctx := (Response.Handled, (), ctx)
  on_event _ _ _ ctx := (Response.Handled, (), ctx + 7)
  on_exit _ _ ctx := ((), ctx)
  handler_on_event _ _ ctx := (Response.Transition 0, (), ctx + 5)

/-- An uninitialized machine: empty cache, no current state, no
handler. -/
def mNone : StateMachine Nat Unit Unit Nat Nat := ⟨[], none, 0, none⟩

/-- A machine settled in state `0` with no global handler. -/
def mAt0 : StateMachine Nat Unit Unit Nat Nat := ⟨[(0, ())], some 0, 0, none⟩

/-- A machine settled in state `0` with a global handler installed. -/
def mAt0h : StateMachine Nat Unit Unit Nat Nat := ⟨[(0, ())], some 0, 0, some ()⟩

/-- A machine settled in state `1` with no global handler. -/
def mAt1 : StateMachine Nat Unit Unit Nat Nat := ⟨[(1, ())], some 1, 0, none⟩

/-! ### Shared structural lemmas about the cascade loops -/

/-- Every entry of a `transLoop` trace is an `on_enter` invocation, the
trace is nonempty, and on success the settled state is the last entered
one. -/
theorem transLoop_trace (M : Fsm S B H CTX E) :
    ∀ (fuel : Nat) (states : List (S × B)) (ctx : CTX) (s : S)
      (r : Except String S) (st2 : List (S × B)) (ctx2 : CTX) (tr : List (Call S E)),
      transLoop M fuel states ctx s = some (r, st2, ctx2, tr) →
      (∀ x ∈ tr, ∃ s', x = Call.OnEnter s') ∧ tr ≠ [] ∧
      (∀ w, r = Except.ok w → tr.getLast? = some (Call.OnEnter w)) := by
  intro fuel
  induction fuel with
  | zero =>
    intro states ctx s r st2 ctx2 tr h
    simp [transLoop] at h
  | succ n ih =>
    intro states ctx s r st2 ctx2 tr h
    simp only [transLoop] at h
    rcases hE : M.on_enter s (fetchOrCreate M states s).1 ctx with ⟨resp, b2, ctx2'⟩
    rw [hE] at h
    dsimp only at h
    cases resp with
    | Handled =>
      simp only [Option.some.injEq, Prod.mk.injEq] at h
      obtain ⟨hr, _, _, htr⟩ := h
      subst hr; subst htr
      simp
    | Error msg =>
      simp only [Option.some.injEq, Prod.mk.injEq] at h
      obtain ⟨hr, _, _, htr⟩ := h
      subst hr; subst htr
      simp
    | Transition s2 =>
      dsimp only at h
      by_cases hs : s2 = s
      · rw [if_pos hs] at h
        simp only [Option.some.injEq, Prod.mk.injEq] at h
        obtain ⟨hr, _, _, htr⟩ := h
        subst hr; subst htr
        simp
      · rw [if_neg hs] at h
        rcases hrec : transLoop M n (updateState (fetchOrCreate M states s).2 s b2) ctx2' s2
          with _ | ⟨r', st3, ctx3, tr'⟩
        · rw [hrec] at h; simp at h
        · rw [hrec] at h
          simp only [Option.some.injEq, Prod.mk.injEq] at h
          obtain ⟨hr, _, _, htr⟩ := h
          subst hr; subst htr
          obtain ⟨ih1, ih2, ih3⟩ := ih _ _ _ _ _ _ _ hrec
          refine ⟨?_, by simp, ?_⟩
          · intro x hx
            rw [List.mem_cons] at hx
            rcases hx with hx | hx
            · exact ⟨s, hx⟩
            · exact ih1 x hx
          · intro w hw
            cases tr' with
            | nil => exact absurd rfl ih2
            | cons a l =>
              rw [List.getLast?_cons_cons]
              exact ih3 w hw

/-- If a state's `on_enter` always answers `Transition` to that state's
own identity, the `init` entry cascade never terminates: there is no
self-transition guard in `initLoop`, unlike `transLoop`. -/
theorem initLoop_self_loop (M : Fsm S B H CTX E) (s : S)
    (hs : ∀ b ctx, (M.on_enter s b ctx).1 = Response.Transition s) :
    ∀ (fuel : Nat) (states : List (S × B)) (ctx : CTX),
      initLoop M fuel states ctx s = none := by
  intro fuel
  induction fuel with
  | zero => intro st ctx; rfl
  | succ n ih =>
    intro st ctx
    simp only [initLoop]
    rw [hs (fetchOrCreate M st s).1 ctx]
    dsimp only
    rw [ih]

/-- A `transition_to` call that returns an `Err` leaves the
`current_state` field at its pre-transition value, the error is always
`StateInvalid`, and the trace starts with the outgoing state's
`on_exit`. -/
theorem transition_to_error (M : Fsm S B H CTX E) (fuel : Nat)
    (m : StateMachine S B H CTX E) (n : S) (er : Error)
    (m2 : StateMachine S B H CTX E) (tr : List (Call S E))
    (h : StateMachine.transition_to M fuel m n = some (Except.error er, m2, tr)) :
    m2.current_state = m.current_state ∧ (∃ msg, er = Error.StateInvalid msg) ∧
    ∃ c tr2, m.current_state = some c ∧ tr = Call.OnExit c :: tr2 := by
  rcases hc : m.current_state with _ | c
  · rw [StateMachine.transition_to, hc] at h; simp at h
  · rw [StateMachine.transition_to, hc] at h
    dsimp only at h
    rcases hl : lookupState m.states c with _ | b
    · rw [hl] at h; simp at h
    · rw [hl] at h
      dsimp only at h
      rcases hL : transLoop M fuel (updateState m.states c (M.on_exit c b m.context).1)
          (M.on_exit c b m.context).2 n with _ | ⟨r, st, ctx2, trL⟩
      · rw [hL] at h; simp at h
      · rw [hL] at h
        cases r with
        | ok w => simp at h
        | error msg =>
          simp only [Option.some.injEq, Prod.mk.injEq, Except.error.injEq] at h
          obtain ⟨her, hm2, htr⟩ := h
          subst her; subst hm2; subst htr
          exact ⟨by simp [hc], ⟨msg, rfl⟩, c, trL, rfl, rfl⟩

/-- A `transition_to` call that returns `Ok` first ran the outgoing
state's `on_exit`, then only `on_enter` callbacks, and settled
`current_state` on the last entered state. -/
theorem transition_to_ok (M : Fsm S B H CTX E) (fuel : Nat)
    (m : StateMachine S B H CTX E) (n : S) (u : Unit)
    (m2 : StateMachine S B H CTX E) (tr : List (Call S E))
    (h : StateMachine.transition_to M fuel m n = some (Except.ok u, m2, tr)) :
    ∃ c trL w, m.current_state = some c ∧ tr = Call.OnExit c :: trL ∧
      m2.current_state = some w ∧ trL.getLast? = some (Call.OnEnter w) ∧
      trL ≠ [] ∧ (∀ x ∈ trL, ∃ s', x = Call.OnEnter s') := by
  rcases hc : m.current_state with _ | c
  · rw [StateMachine.transition_to, hc] at h; simp at h
  · rw [StateMachine.transition_to, hc] at h
    dsimp only at h
    rcases hl : lookupState m.states c with _ | b
    · rw [hl] at h; simp at h
    · rw [hl] at h
      dsimp only at h
      rcases hL : transLoop M fuel (updateState m.states c (M.on_exit c b m.context).1)
          (M.on_exit c b m.context).2 n with _ | ⟨r, st, ctx2, trL⟩
      · rw [hL] at h; simp at h
      · rw [hL] at h
        cases r with
        | error msg => simp at h
        | ok w =>
          simp only [Option.some.injEq, Prod.mk.injEq] at h
          obtain ⟨_, hm2, htr⟩ := h
          subst hm2; subst htr
          obtain ⟨t1, t2, t3⟩ := transLoop_trace M fuel _ _ _ _ _ _ _ hL
          exact ⟨c, trL, w, rfl, rfl, by simp, t3 w rfl, t2, t1⟩

/-- When the active state's `on_event` answers `Transition` to the
current state identity itself, `dispatchEvent` returns `Ok` after only
the `on_event` invocation, leaving `current_state` (and the handler
state) untouched. -/
theorem dispatchEvent_self (M : Fsm S B H CTX E) (fuel : Nat)
    (m : StateMachine S B H CTX E) (c : S) (e : E)
    (hev : ∀ b ctx, (M.on_event c b e ctx).1 = Response.Transition c) :
    ∃ st2 ctx2, StateMachine.dispatchEvent M fuel m c e =
      some (Except.ok (), { m with states := st2, context := ctx2 },
        [Call.OnEvent c e]) := by
  refine ⟨updateState (fetchOrCreate M m.states c).2 c
      (M.on_event c (fetchOrCreate M m.states c).1 e m.context).2.1,
    (M.on_event c (fetchOrCreate M m.states c).1 e m.context).2.2, ?_⟩
  simp only [StateMachine.dispatchEvent]
  rw [hev (fetchOrCreate M m.states c).1 m.context]
  dsimp only
  rw [if_pos rfl]

/-- Every successful `dispatchEvent` trace starts with the active
state's `on_event` invocation. -/
theorem dispatchEvent_trace (M : Fsm S B H CTX E) (fuel : Nat)
    (m : StateMachine S B H CTX E) (c : S) (e : E)
    (r : Except Error Unit) (m2 : StateMachine S B H CTX E) (tr : List (Call S E))
    (h : StateMachine.dispatchEvent M fuel m c e = some (r, m2, tr)) :
    ∃ tr', tr = Call.OnEvent c e :: tr' := by
  simp only [StateMachine.dispatchEvent] at h
  rcases hr : (M.on_event c (fetchOrCreate M m.states c).1 e m.context).1 with _ | msg | n
  · rw [hr] at h
    dsimp only at h
    simp only [Option.some.injEq, Prod.mk.injEq] at h
    exact ⟨[], h.2.2.symm⟩
  · rw [hr] at h
    dsimp only at h
    simp only [Option.some.injEq, Prod.mk.injEq] at h
    exact ⟨[], h.2.2.symm⟩
  · rw [hr] at h
    dsimp only at h
    by_cases hn : n = c
    · rw [if_pos hn] at h
      simp only [Option.some.injEq, Prod.mk.injEq] at h
      exact ⟨[], h.2.2.symm⟩
    · rw [if_neg hn] at h
      rcases hT : StateMachine.transition_to M fuel
          { m with
              states := updateState (fetchOrCreate M m.states c).2 c
                (M.on_event c (fetchOrCreate M m.states c).1 e m.context).2.1,
              context := (M.on_event c (fetchOrCreate M m.states c).1 e m.context).2.2 } n
        with _ | ⟨r', m2', tr2⟩
      · rw [hT] at h; simp at h
      · rw [hT] at h
        simp only [Option.some.injEq, Prod.mk.injEq] at h
        exact ⟨tr2, h.2.2.symm⟩

/-! ### Claim theorems -/

/-- C1 (amended): for every fuel, machine and event, the synchronous and
asynchronous `process_event` either return literally the same result
(same `Ok`/`Err` value, same final machine — cache, current state,
context, handler state — and same callback trace), or — only when the
global handler answered `Transition` to a state different from the
current one and the resulting entry cascade failed — they return the same
final machine and the same callback trace but the synchronous engine
surfaces the `StateInvalid` error while the asynchronous one discards it
and returns `Ok(())`.  (`init` and `transition_to` are textually identical
in the two source modules and are shared definitions here.) -/
theorem c1_sync_async_agree (M : Fsm S B H CTX E) (fuel : Nat)
    (m : StateMachine S B H CTX E) (e : E) :
    sync.process_event M fuel m e = Async.process_event M fuel m e ∨
    ∃ msg m2 tr h c n,
      m.current_state = some c ∧
      m.global_event_handler = some h ∧
      (M.handler_on_event h e m.context).1 = Response.Transition n ∧
      n ≠ c ∧
      sync.process_event M fuel m e =
        some (Except.error (Error.StateInvalid msg), m2, tr) ∧
      Async.process_event M fuel m e = some (Except.ok (), m2, tr) := by
  obtain ⟨st, cur, ctx, geh⟩ := m
  cases cur with
  | none => left; rfl
  | some c =>
    cases geh with
    | none => left; rfl
    | some h =>
      rcases hH : M.handler_on_event h e ctx with ⟨resp, h2, ctx1⟩
      cases resp with
      | Handled =>
        left
        simp only [sync.process_event, Async.process_event, hH]
      | Error s =>
        left
        simp only [sync.process_event, Async.process_event, hH]
      | Transition n =>
        by_cases hn : n = c
        · left
          simp only [sync.process_event, Async.process_event, hH, if_pos hn]
        · rcases hT : StateMachine.transition_to M fuel
              ⟨st, some c, ctx1, some h2⟩ n with _ | ⟨r, m2, tr⟩
          · left
            simp only [sync.process_event, Async.process_event, hH, if_neg hn]
            rw [hT]
          · cases r with
            | ok u =>
              left
              cases u
              simp only [sync.process_event, Async.process_event, hH, if_neg hn]
              rw [hT]
            | error er =>
              right
              obtain ⟨_, ⟨msg, hmsg⟩, _⟩ :=
                transition_to_error M fuel _ n er m2 tr hT
              subst hmsg
              refine ⟨msg, m2, Call.GlobalOnEvent e :: tr, h, c, n, rfl, rfl,
                by rw [hH], hn, ?_, ?_⟩
              · simp only [sync.process_event, hH, if_neg hn]
                rw [hT]
              · simp only [Async.process_event, hH, if_neg hn]
                rw [hT]

/-- C1 (counterexample to the claim as stated): with the `Mreject`
fixture — global handler redirects to state `1`, whose `on_enter` answers
`Error "boom"` — the synchronous engine returns the `StateInvalid` error
but the asynchronous engine returns `Ok(())` for the identical run (same
final machine, same callback sequence), so the two variants do NOT both
return the error. -/
theorem c1_counterexample :
    sync.process_event Mreject 3 mAt0h 7 =
      some (Except.error (Error.StateInvalid "boom"),
        ⟨[(0, ()), (1, ())], some 0, 11, some ()⟩,
        [Call.GlobalOnEvent 7, Call.OnExit 0, Call.OnEnter 1]) ∧
    Async.process_event Mreject 3 mAt0h 7 =
      some (Except.ok (),
        ⟨[(0, ()), (1, ())], some 0, 11, some ()⟩,
        [Call.GlobalOnEvent 7, Call.OnExit 0, Call.OnEnter 1]) :=
  ⟨rfl, rfl⟩

/-- C2 (amended): for a state `s` whose `on_enter` always answers
`Transition` to its own identity, the two entry points of the cascade
behave differently.  In `transition_to` (both variants share the
definition) the self-transition guard terminates the cascade with `s` as
the settled current state after a single `on_enter`.  In `init` (both
variants) there is NO guard: the cascade re-invokes `on_enter` on `s`
forever, so `init` diverges (returns `none` for every amount of fuel). -/
theorem c2_self_transition_guard (M : Fsm S B H CTX E) (s : S)
    (hs : ∀ b ctx, (M.on_enter s b ctx).1 = Response.Transition s) :
    (∀ (fuel : Nat) (states : List (S × B)) (ctx : CTX), 1 ≤ fuel →
      ∃ st2 ctx2, transLoop M fuel states ctx s =
        some (Except.ok s, st2, ctx2, [Call.OnEnter s])) ∧
    (∀ (fuel : Nat) (m : StateMachine S B H CTX E) (c : S) (b0 : B), 1 ≤ fuel →
      m.current_state = some c → lookupState m.states c = some b0 →
      ∃ m2, StateMachine.transition_to M fuel m s =
          some (Except.ok (), m2, [Call.OnExit c, Call.OnEnter s]) ∧
        m2.current_state = some s) ∧
    (∀ (fuel : Nat) (states : List (S × B)) (ctx : CTX),
      initLoop M fuel states ctx s = none) ∧
    (∀ (fuel : Nat) (m : StateMachine S B H CTX E),
      m.current_state = none → StateMachine.init M fuel m s = none) := by
  have hloop : ∀ (fuel : Nat) (states : List (S × B)) (ctx : CTX), 1 ≤ fuel →
      ∃ st2 ctx2, transLoop M fuel states ctx s =
        some (Except.ok s, st2, ctx2, [Call.OnEnter s]) := by
    intro fuel states ctx hf
    obtain ⟨f, rfl⟩ : ∃ f, fuel = f + 1 := ⟨fuel - 1, by omega⟩
    refine ⟨updateState (fetchOrCreate M states s).2 s
        (M.on_enter s (fetchOrCreate M states s).1 ctx).2.1,
      (M.on_enter s (fetchOrCreate M states s).1 ctx).2.2, ?_⟩
    simp only [transLoop]
    rw [hs (fetchOrCreate M states s).1 ctx]
    dsimp only
    rw [if_pos rfl]
  refine ⟨hloop, ?_, initLoop_self_loop M s hs, ?_⟩
  · intro fuel m c b0 hf hc hb
    obtain ⟨st2, ctx2, hL⟩ := hloop fuel (updateState m.states c (M.on_exit c b0 m.context).1)
      (M.on_exit c b0 m.context).2 hf
    refine ⟨{ m with states := st2, context := ctx2, current_state := some s }, ?_, rfl⟩
    rw [StateMachine.transition_to, hc]
    dsimp only
    rw [hb]
    dsimp only
    rw [hL]
  · intro fuel m hc
    rw [StateMachine.init, hc]
    dsimp only
    rw [initLoop_self_loop M s hs]

/-- C2 witness: the `MselfLoop` fixture instantiates the amended claim:
its `on_enter` always self-transitions, the guarded `transLoop` and
`transition_to` settle immediately in the target state, and `initLoop`
and `init` diverge at concrete fuel values. -/
theorem c2_witness :
    (∀ (b : Unit) (ctx : Nat), (MselfLoop.on_enter 0 b ctx).1 = Response.Transition 0) ∧
    (∃ st2 ctx2, transLoop MselfLoop 3 [] 5 0 =
      some (Except.ok 0, st2, ctx2, [Call.OnEnter 0])) ∧
    (∃ m2, StateMachine.transition_to MselfLoop 3 mAt1 0 =
        some (Except.ok (), m2, [Call.OnExit 1, Call.OnEnter 0]) ∧
      m2.current_state = some 0) ∧
    initLoop MselfLoop 7 [] 5 0 = none ∧
    StateMachine.init MselfLoop 7 mNone 0 = none :=
  ⟨fun _ _ => rfl,
   (c2_self_transition_guard MselfLoop 0 (fun _ _ => rfl)).1 3 [] 5 (by decide),
   (c2_self_transition_guard MselfLoop 0 (fun _ _ => rfl)).2.1 3 mAt1 1 () (by decide) rfl rfl,
   (c2_self_transition_guard MselfLoop 0 (fun _ _ => rfl)).2.2.1 7 [] 5,
   (c2_self_transition_guard MselfLoop 0 (fun _ _ => rfl)).2.2.2 7 mNone rfl⟩

/-- C2 (counterexample to the claim as stated): with the `MselfLoop`
fixture, whose every state's `on_enter` answers `Transition` to itself,
`init` from an uninitialized machine does not terminate (it exhausts any
fuel, here 5, instead of settling), whereas — with the same fuel — the
`transition_to` cascade entering the same state settles immediately, so
the claimed guard exists only at the `transition_to` entry point. -/
theorem c2_counterexample :
    StateMachine.init MselfLoop 5 mNone 0 = none ∧
    StateMachine.transition_to MselfLoop 5 mAt1 0 =
      some (Except.ok (), ⟨[(1, ()), (0, ())], some 0, 0, none⟩,
        [Call.OnExit 1, Call.OnEnter 0]) :=
  ⟨rfl, rfl⟩

/-- C3: in a synchronous `process_event` (here with no global handler
configured, so the active state's dispatch is reached directly), if the
active state's `on_event` answers `Transition(n)` with `n` different
from the current state `c` and the resulting entry cascade fails with an
`Error` response (i.e. `transition_to` returns an `Err`), then
`process_event` returns that error — always of the `StateInvalid` shape
— and the machine's `current_state` field still holds the pre-transition
state `c`. -/
theorem c3_rejected_transition_rollback (M : Fsm S B H CTX E) (fuel : Nat)
    (m : StateMachine S B H CTX E) (c n : S) (e : E)
    (b : B) (st1 : List (S × B)) (b2 : B) (ctx1 : CTX)
    (er : Error) (m2 : StateMachine S B H CTX E) (tr2 : List (Call S E))
    (hc : m.current_state = some c)
    (hg : m.global_event_handler = none)
    (hfetch : fetchOrCreate M m.states c = (b, st1))
    (hev : M.on_event c b e m.context = (Response.Transition n, b2, ctx1))
    (hne : n ≠ c)
    (herr : StateMachine.transition_to M fuel
        { m with states := updateState st1 c b2, context := ctx1 } n =
      some (Except.error er, m2, tr2)) :
    sync.process_event M fuel m e =
      some (Except.error er, m2, Call.OnEvent c e :: tr2) ∧
    m2.current_state = some c ∧
    ∃ msg, er = Error.StateInvalid msg := by
  obtain ⟨hcur, hmsg, -⟩ := transition_to_error M fuel _ n er m2 tr2 herr
  refine ⟨?_, by rw [hcur]; simpa using hc, hmsg⟩
  rw [sync.process_event, hc]
  dsimp only
  rw [hg]
  dsimp only
  rw [StateMachine.dispatchEvent, hfetch]
  dsimp only
  rw [hev]
  dsimp only
  rw [if_neg hne]
  rw [herr]

/-- C3 witness: with the `Mreject` fixture from state `0`, event `7`
triggers `Transition(1)` whose entry is rejected with `Error "boom"`;
`process_event` surfaces `StateInvalid "boom"` and the machine stays in
state `0`. -/
theorem c3_witness :
    mAt0.current_state = some 0 ∧
    mAt0.global_event_handler = none ∧
    fetchOrCreate Mreject mAt0.states 0 = ((), [(0, ())]) ∧
    Mreject.on_event 0 () 7 mAt0.context = (Response.Transition 1, (), 100) ∧
    (1 : Nat) ≠ 0 ∧
    StateMachine.transition_to Mreject 2
        { mAt0 with states := updateState [(0, ())] 0 (), context := 100 } 1 =
      some (Except.error (Error.StateInvalid "boom"),
        ⟨[(0, ()), (1, ())], some 0, 111, none⟩, [Call.OnExit 0, Call.OnEnter 1]) ∧
    (sync.process_event Mreject 2 mAt0 7 =
      some (Except.error (Error.StateInvalid "boom"),
        ⟨[(0, ()), (1, ())], some 0, 111, none⟩,
        [Call.OnEvent 0 7, Call.OnExit 0, Call.OnEnter 1]) ∧
     (⟨[(0, ()), (1, ())], some 0, 111, none⟩ :
        StateMachine Nat Unit Unit Nat Nat).current_state = some 0 ∧
     ∃ msg, Error.StateInvalid "boom" = Error.StateInvalid msg) :=
  ⟨rfl, rfl, rfl, rfl, by decide, rfl,
    c3_rejected_transition_rollback Mreject 2 mAt0 0 1 7 () [(0, ())] () 100
      (Error.StateInvalid "boom") ⟨[(0, ()), (1, ())], some 0, 111, none⟩
      [Call.OnExit 0, Call.OnEnter 1] rfl rfl rfl rfl (by decide) rfl⟩

/-- C4: calling `process_event` (either variant) on a machine with no
current state set returns `Err(StateMachineNotInitialized)`, performs no
callback at all (empty trace) and returns the machine unchanged — in
particular the current state is still absent. -/
theorem c4_not_initialized_guard (M : Fsm S B H CTX E) (fuel : Nat)
    (m : StateMachine S B H CTX E) (e : E)
    (hc : m.current_state = none) :
    sync.process_event M fuel m e =
      some (Except.error Error.StateMachineNotInitialized, m, []) ∧
    Async.process_event M fuel m e =
      some (Except.error Error.StateMachineNotInitialized, m, []) := by
  constructor
  · rw [sync.process_event, hc]
  · rw [Async.process_event, hc]

/-- C4 witness: the uninitialized fixture machine `mNone`. -/
theorem c4_witness :
    mNone.current_state = none ∧
    (sync.process_event Mtriv 3 mNone 5 =
      some (Except.error Error.StateMachineNotInitialized, mNone, []) ∧
     Async.process_event Mtriv 3 mNone 5 =
      some (Except.error Error.StateMachineNotInitialized, mNone, [])) :=
  ⟨rfl, c4_not_initialized_guard Mtriv 3 mNone 5 rfl⟩

/-- C5: when a global handler is configured and answers `Transition(n)`
for an event with `n` different from the current state, and the entry
cascade for `n` settles (here: `transition_to` returns `Ok`), then, in
both variants, `process_event` returns `Ok`, the active state's
`on_event` is never invoked (the trace holds no `OnEvent` entry at all),
and the machine ends in the state where the cascade settled — the last
entered state of the trace. -/
theorem c5_global_handler_precedence (M : Fsm S B H CTX E) (fuel : Nat)
    (m : StateMachine S B H CTX E) (c n : S) (e : E) (h h2 : H) (ctx1 : CTX)
    (m2 : StateMachine S B H CTX E) (tr2 : List (Call S E))
    (hc : m.current_state = some c)
    (hh : m.global_event_handler = some h)
    (hresp : M.handler_on_event h e m.context = (Response.Transition n, h2, ctx1))
    (hne : n ≠ c)
    (htr : StateMachine.transition_to M fuel
        { m with global_event_handler := some h2, context := ctx1 } n =
      some (Except.ok (), m2, tr2)) :
    sync.process_event M fuel m e =
      some (Except.ok (), m2, Call.GlobalOnEvent e :: tr2) ∧
    Async.process_event M fuel m e =
      some (Except.ok (), m2, Call.GlobalOnEvent e :: tr2) ∧
    (∀ c' e', Call.OnEvent c' e' ∉ (Call.GlobalOnEvent e :: tr2 : List (Call S E))) ∧
    ∃ w, m2.current_state = some w ∧ tr2.getLast? = some (Call.OnEnter w) := by
  rw [hc] at htr
  obtain ⟨c0, trL, w, hc0, htrL, hw, hlast, hne0, hall⟩ :=
    transition_to_ok M fuel _ n () m2 tr2 htr
  refine ⟨?_, ?_, ?_, ?_⟩
  · rw [sync.process_event, hc]
    dsimp only
    rw [hh]
    dsimp only
    rw [hresp]
    dsimp only
    rw [if_neg hne, htr]
  · rw [Async.process_event, hc]
    dsimp only
    rw [hh]
    dsimp only
    rw [hresp]
    dsimp only
    rw [if_neg hne, htr]
  · intro c' e' hmem
    rw [List.mem_cons] at hmem
    rcases hmem with hmem | hmem
    · exact Call.noConfusion hmem
    · subst htrL
      rw [List.mem_cons] at hmem
      rcases hmem with hmem | hmem
      · exact Call.noConfusion hmem
      · obtain ⟨s', hs'⟩ := hall _ hmem
        exact Call.noConfusion hs'
  · subst htrL
    refine ⟨w, hw, ?_⟩
    cases trL with
    | nil => exact absurd rfl hne0
    | cons a l => rw [List.getLast?_cons_cons]; exact hlast

/-- C5 witness: with the `Mok` fixture the handler redirects event `7`
from state `0` to state `1`, whose entry chains to state `2` where the
cascade settles with `Handled`; the active state's `on_event` never runs
and the machine ends in state `2`. -/
theorem c5_witness :
    mAt0h.current_state = some 0 ∧
    mAt0h.global_event_handler = some () ∧
    Mok.handler_on_event () 7 mAt0h.context = (Response.Transition 1, (), 2) ∧
    (1 : Nat) ≠ 0 ∧
    StateMachine.transition_to Mok 5
        { mAt0h with global_event_handler := some (), context := 2 } 1 =
      some (Except.ok (), ⟨[(0, ()), (1, ()), (2, ())], some 2, 4, some ()⟩,
        [Call.OnExit 0, Call.OnEnter 1, Call.OnEnter 2]) ∧
    (sync.process_event Mok 5 mAt0h 7 =
      some (Except.ok (), ⟨[(0, ()), (1, ()), (2, ())], some 2, 4, some ()⟩,
        [Call.GlobalOnEvent 7, Call.OnExit 0, Call.OnEnter 1, Call.OnEnter 2]) ∧
     Async.process_event Mok 5 mAt0h 7 =
      some (Except.ok (), ⟨[(0, ()), (1, ()), (2, ())], some 2, 4, some ()⟩,
        [Call.GlobalOnEvent 7, Call.OnExit 0, Call.OnEnter 1, Call.OnEnter 2]) ∧
     (∀ c' e', Call.OnEvent c' e' ∉
        ([Call.GlobalOnEvent 7, Call.OnExit 0, Call.OnEnter 1, Call.OnEnter 2] :
          List (Call Nat Nat))) ∧
     ∃ w, (⟨[(0, ()), (1, ()), (2, ())], some 2, 4, some ()⟩ :
          StateMachine Nat Unit Unit Nat Nat).current_state = some w ∧
        ([Call.OnExit 0, Call.OnEnter 1, Call.OnEnter 2] :
          List (Call Nat Nat)).getLast? = some (Call.OnEnter w)) :=
  ⟨rfl, rfl, rfl, by decide, rfl,
    c5_global_handler_precedence Mok 5 mAt0h 0 1 7 () () 2
      ⟨[(0, ()), (1, ()), (2, ())], some 2, 4, some ()⟩
      [Call.OnExit 0, Call.OnEnter 1, Call.OnEnter 2]
      rfl rfl rfl (by decide) rfl⟩

/-- C6: if `init` is called on an uninitialized machine with initial
state `X`, `X`'s `on_enter` always answers `Transition(Y)` and `Y`'s
`on_enter` always answers `Handled`, then (with at least two steps of
fuel) `init` returns `Ok`, the trace is exactly one `on_enter` of `X`
followed by one `on_enter` of `Y` — so no `on_exit` ever runs and each
`on_enter` ran exactly once — and the settled current state is `Y`.
The `init` definition is shared by the synchronous and asynchronous
variants, whose source is textually identical. -/
theorem c6_entry_cascade_chaining (M : Fsm S B H CTX E) (fuel : Nat)
    (m : StateMachine S B H CTX E) (X Y : S)
    (hc : m.current_state = none)
    (hfuel : 2 ≤ fuel)
    (hX : ∀ b ctx, (M.on_enter X b ctx).1 = Response.Transition Y)
    (hY : ∀ b ctx, (M.on_enter Y b ctx).1 = Response.Handled) :
    ∃ m2, StateMachine.init M fuel m X =
        some (Except.ok (), m2, [Call.OnEnter X, Call.OnEnter Y]) ∧
      m2.current_state = some Y := by
  obtain ⟨f, rfl⟩ : ∃ f, fuel = f + 2 := ⟨fuel - 2, by omega⟩
  rcases hF1 : fetchOrCreate M m.states X with ⟨bX, st1⟩
  rcases hE1 : M.on_enter X bX m.context with ⟨r1, bX2, ctxX⟩
  have hr1 : r1 = Response.Transition Y := by
    have := hX bX m.context; rw [hE1] at this; exact this
  subst hr1
  rcases hF2 : fetchOrCreate M (updateState st1 X bX2) Y with ⟨bY, stY⟩
  rcases hE2 : M.on_enter Y bY ctxX with ⟨r2, bY2, ctxY⟩
  have hr2 : r2 = Response.Handled := by
    have := hY bY ctxX; rw [hE2] at this; exact this
  subst hr2
  refine ⟨⟨updateState stY Y bY2, some Y, ctxY, m.global_event_handler⟩, ?_, rfl⟩
  rw [StateMachine.init, hc]
  dsimp only
  rw [show f + 2 = (f + 1) + 1 from rfl]
  simp only [initLoop, hF1, hE1, hF2, hE2]

/-- C6 witness: the `Mchain` fixture chains `0 → 1` during `init`; each
state is entered once, no exit runs, and the machine settles in `1`. -/
theorem c6_witness :
    mNone.current_state = none ∧
    (2 : Nat) ≤ 5 ∧
    (∀ (b : Unit) (ctx : Nat), (Mchain.on_enter 0 b ctx).1 = Response.Transition 1) ∧
    (∀ (b : Unit) (ctx : Nat), (Mchain.on_enter 1 b ctx).1 = Response.Handled) ∧
    ∃ m2, StateMachine.init Mchain 5 mNone 0 =
        some (Except.ok (), m2, [Call.OnEnter 0, Call.OnEnter 1]) ∧
      m2.current_state = some 1 :=
  ⟨rfl, by decide, fun b ctx => rfl, fun b ctx => rfl,
    c6_entry_cascade_chaining Mchain 5 mNone 0 1 rfl (by decide)
      (fun b ctx => rfl) (fun b ctx => rfl)⟩

/-- C7: during a `process_event` on an initialized machine in state `c`
— with the global handler absent, or answering `Handled` or a
self-`Transition(c)` so that dispatch reaches the active state — if the
active state's `on_event` answers `Transition(c)` (the current identity
itself), then the call returns `Ok`, no `on_enter` and no `on_exit`
appears in the trace, and the `current_state` field is unchanged. -/
theorem c7_self_transition_noop (M : Fsm S B H CTX E) (fuel : Nat)
    (m : StateMachine S B H CTX E) (c : S) (e : E)
    (hc : m.current_state = some c)
    (hg : ∀ h, m.global_event_handler = some h →
      (M.handler_on_event h e m.context).1 = Response.Handled ∨
      (M.handler_on_event h e m.context).1 = Response.Transition c)
    (hev : ∀ b ctx, (M.on_event c b e ctx).1 = Response.Transition c) :
    ∃ m2 tr, sync.process_event M fuel m e = some (Except.ok (), m2, tr) ∧
      m2.current_state = some c ∧
      (∀ s, Call.OnEnter s ∉ tr) ∧ (∀ s, Call.OnExit s ∉ tr) := by
  rcases hh : m.global_event_handler with _ | h
  · obtain ⟨st2, ctx2, hd⟩ := dispatchEvent_self M fuel m c e hev
    rw [hc, hh] at hd
    refine ⟨⟨st2, some c, ctx2, none⟩, [Call.OnEvent c e],
      ?_, ?_, by simp, by simp⟩
    · rw [sync.process_event, hc]
      dsimp only
      rw [hh]
      dsimp only
      exact hd
    · rfl
  · rcases hH : M.handler_on_event h e m.context with ⟨resp, h2, ctx1⟩
    have hd := dispatchEvent_self M fuel
      { m with global_event_handler := some h2, context := ctx1 } c e hev
    obtain ⟨st2, ctx2, hd⟩ := hd
    rw [hc] at hd
    have hre := hg h hh
    rw [hH] at hre
    dsimp only at hre
    refine ⟨⟨st2, some c, ctx2, some h2⟩,
      [Call.GlobalOnEvent e, Call.OnEvent c e], ?_, ?_, by simp, by simp⟩
    · rw [sync.process_event, hc]
      dsimp only
      rw [hh]
      dsimp only
      rw [hH]
      dsimp only
      rcases hre with hre | hre
      · rw [hre]
        dsimp only
        rw [hd]
      · rw [hre]
        dsimp only
        rw [if_pos rfl]
        rw [hd]
    · rfl

/-- C7 witness: the `MselfEvent` fixture's state `0` answers
`Transition(0)` to event `7`; the call returns `Ok`, only the `on_event`
callback runs, and the machine stays in state `0`. -/
theorem c7_witness :
    mAt0.current_state = some 0 ∧
    (∀ (h : Unit), mAt0.global_event_handler = some h →
      (MselfEvent.handler_on_event h 7 mAt0.context).1 = Response.Handled ∨
      (MselfEvent.handler_on_event h 7 mAt0.context).1 = Response.Transition 0) ∧
    (∀ (b : Unit) (ctx : Nat), (MselfEvent.on_event 0 b 7 ctx).1 = Response.Transition 0) ∧
    ∃ m2 tr, sync.process_event MselfEvent 3 mAt0 7 = some (Except.ok (), m2, tr) ∧
      m2.current_state = some 0 ∧
      (∀ s, Call.OnEnter s ∉ tr) ∧ (∀ s, Call.OnExit s ∉ tr) :=
  ⟨rfl, fun _ hh => Option.noConfusion hh, fun _ _ => rfl,
    c7_self_transition_noop MselfEvent 3 mAt0 0 7 rfl
      (fun _ hh => Option.noConfusion hh) (fun _ _ => rfl)⟩

/-- C8: when a transition away from the current state `c` runs
(`transition_to`), the outgoing state's `on_exit` is invoked first — the
trace is `OnExit c` followed by the cascade's `on_enter`-only trace —
and when the cascade fails with an `Error` response nothing is undone:
the returned machine keeps the cascade's final behavior cache and
context (every mutation made by `on_exit` and by the failed `on_enter`
calls persists), and only the `current_state` field is left at its
pre-transition value `c`. -/
theorem c8_exit_runs_first_no_context_rollback (M : Fsm S B H CTX E) (fuel : Nat)
    (m : StateMachine S B H CTX E) (c n : S) (b0 : B)
    (msg : String) (st2 : List (S × B)) (ctx2 : CTX) (trL : List (Call S E))
    (hc : m.current_state = some c)
    (hlook : lookupState m.states c = some b0)
    (hloop : transLoop M fuel (updateState m.states c (M.on_exit c b0 m.context).1)
        (M.on_exit c b0 m.context).2 n =
      some (Except.error msg, st2, ctx2, trL)) :
    StateMachine.transition_to M fuel m n =
      some (Except.error (Error.StateInvalid msg),
        ⟨st2, some c, ctx2, m.global_event_handler⟩, Call.OnExit c :: trL) ∧
    (⟨st2, some c, ctx2, m.global_event_handler⟩ :
      StateMachine S B H CTX E).current_state = some c ∧
    (∀ x ∈ trL, ∃ s', x = Call.OnEnter s') := by
  refine ⟨?_, rfl, (transLoop_trace M fuel _ _ _ _ _ _ _ hloop).1⟩
  rw [StateMachine.transition_to, hc]
  dsimp only
  rw [hlook]
  dsimp only
  rw [hloop]

/-- C8 witness: with the `Mreject` fixture, leaving state `0` for state
`1` first runs `on_exit` (context `0 → 10`), then `on_enter` of `1`
fails (`Error "boom"`, context `10 → 11`); the machine keeps the mutated
context `11` and the enlarged cache, and only `current_state` is still
`0`. -/
theorem c8_witness :
    mAt0.current_state = some 0 ∧
    lookupState mAt0.states 0 = some () ∧
    transLoop Mreject 2 (updateState mAt0.states 0 (Mreject.on_exit 0 () mAt0.context).1)
        (Mreject.on_exit 0 () mAt0.context).2 1 =
      some (Except.error "boom", [(0, ()), (1, ())], 11, [Call.OnEnter 1]) ∧
    (StateMachine.transition_to Mreject 2 mAt0 1 =
      some (Except.error (Error.StateInvalid "boom"),
        ⟨[(0, ()), (1, ())], some 0, 11, mAt0.global_event_handler⟩,
        Call.OnExit 0 :: [Call.OnEnter 1]) ∧
     (⟨[(0, ()), (1, ())], some 0, 11, mAt0.global_event_handler⟩ :
       StateMachine Nat Unit Unit Nat Nat).current_state = some 0 ∧
     (∀ x ∈ ([Call.OnEnter 1] : List (Call Nat Nat)), ∃ s', x = Call.OnEnter s')) :=
  ⟨rfl, rfl, rfl,
    c8_exit_runs_first_no_context_rollback Mreject 2 mAt0 0 1 () "boom"
      [(0, ()), (1, ())] 11 [Call.OnEnter 1] rfl rfl rfl⟩

/-- C9: when the global handler answers `Transition` to the current
state identity itself, no exit or entry is performed for that response;
processing falls through to the ordinary active-state dispatch of the
very same event (whose response then determines the call's outcome), in
both variants, and every successful outcome's trace shows the active
state's `on_event` invoked right after the handler. -/
theorem c9_handler_self_transition_falls_through (M : Fsm S B H CTX E) (fuel : Nat)
    (m : StateMachine S B H CTX E) (c : S) (e : E) (h h2 : H) (ctx1 : CTX)
    (hc : m.current_state = some c)
    (hh : m.global_event_handler = some h)
    (hresp : M.handler_on_event h e m.context = (Response.Transition c, h2, ctx1)) :
    (sync.process_event M fuel m e =
      match StateMachine.dispatchEvent M fuel
          { m with global_event_handler := some h2, context := ctx1 } c e with
      | none => none
      | some (r, m2, tr) => some (r, m2, Call.GlobalOnEvent e :: tr)) ∧
    Async.process_event M fuel m e = sync.process_event M fuel m e ∧
    (∀ r m2 tr, StateMachine.dispatchEvent M fuel
        { m with global_event_handler := some h2, context := ctx1 } c e =
        some (r, m2, tr) → ∃ tr', tr = Call.OnEvent c e :: tr') := by
  refine ⟨?_, ?_, ?_⟩
  · rw [sync.process_event, hc]
    dsimp only
    rw [hh]
    dsimp only
    rw [hresp]
    dsimp only
    rw [if_pos rfl]
  · rw [sync.process_event, Async.process_event, hc]
    dsimp only
    rw [hh]
    dsimp only
    rw [hresp]
    dsimp only
    rw [if_pos rfl]
    rw [if_pos rfl]
  · intro r m2 tr hd
    exact dispatchEvent_trace M fuel _ c e r m2 tr hd

/-- C9 witness: the `MhandlerSelf` fixture's handler answers
`Transition(0)` while the machine is in state `0`; both variants fall
through to the state's own `on_event` of the same event. -/
theorem c9_witness :
    mAt0h.current_state = some 0 ∧
    mAt0h.global_event_handler = some () ∧
    MhandlerSelf.handler_on_event () 7 mAt0h.context = (Response.Transition 0, (), 5) ∧
    ((sync.process_event MhandlerSelf 3 mAt0h 7 =
      match StateMachine.dispatchEvent MhandlerSelf 3
          { mAt0h with global_event_handler := some (), context := 5 } 0 7 with
      | none => none
      | some (r, m2, tr) => some (r, m2, Call.GlobalOnEvent 7 :: tr)) ∧
     Async.process_event MhandlerSelf 3 mAt0h 7 =
       sync.process_event MhandlerSelf 3 mAt0h 7 ∧
     (∀ r m2 tr, StateMachine.dispatchEvent MhandlerSelf 3
        { mAt0h with global_event_handler := some (), context := 5 } 0 7 =
        some (r, m2, tr) → ∃ tr', tr = Call.OnEvent 0 7 :: tr')) :=
  ⟨rfl, rfl, rfl,
    c9_handler_self_transition_falls_through MhandlerSelf 3 mAt0h 0 7 () () 5
      rfl rfl rfl⟩

/-- C10: calling `init` on a machine whose current state is already set
returns `Ok(())` and the machine completely unchanged (same cache,
current state, context and handler state) with no callback invoked, for
every initial-state argument and any fuel; and an `init` (from the
uninitialized state) that returns an `Err` leaves the current state
still absent, so initialization can be retried. -/
theorem c10_init_idempotent (M : Fsm S B H CTX E) (fuel : Nat)
    (m : StateMachine S B H CTX E) (s0 : S) :
    (∀ c, m.current_state = some c →
      StateMachine.init M fuel m s0 = some (Except.ok (), m, [])) ∧
    (m.current_state = none →
      ∀ er m2 tr, StateMachine.init M fuel m s0 = some (Except.error er, m2, tr) →
        m2.current_state = none) := by
  constructor
  · intro c hc
    rw [StateMachine.init, hc]
  · intro hc er m2 tr h
    rw [StateMachine.init, hc] at h
    dsimp only at h
    rcases hL : initLoop M fuel m.states m.context s0 with _ | ⟨r, st, ctx, tr'⟩
    · rw [hL] at h; simp at h
    · rw [hL] at h
      cases r with
      | ok s => simp at h
      | error msg =>
        simp only [Option.some.injEq, Prod.mk.injEq] at h
        obtain ⟨_, hm2, _⟩ := h
        subst hm2
        rfl

/-- C10 witness: part one on the already-initialized `mAt0` (machine
returned verbatim, empty trace, for an arbitrary argument `9`); part two
on the `Mreject` fixture whose state `1` rejects entry, so `init` from
`mNone` fails and the current state is still absent. -/
theorem c10_witness :
    (mAt0.current_state = some 0 ∧
     StateMachine.init Mchain 4 mAt0 9 = some (Except.ok (), mAt0, [])) ∧
    (mNone.current_state = none ∧
     StateMachine.init Mreject 3 mNone 1 =
       some (Except.error (Error.StateInvalid "boom"),
         ⟨[(1, ())], none, 1, none⟩, [Call.OnEnter 1]) ∧
     (⟨[(1, ())], none, 1, none⟩ :
       StateMachine Nat Unit Unit Nat Nat).current_state = none) :=
  ⟨⟨rfl, (c10_init_idempotent Mchain 4 mAt0 9).1 0 rfl⟩,
   ⟨rfl, rfl,
    (c10_init_idempotent Mreject 3 mNone 1).2 rfl (Error.StateInvalid "boom")
      ⟨[(1, ())], none, 1, none⟩ [Call.OnEnter 1] rfl⟩⟩
